import Mathlib

/-!
Verification development for the EndeeSync RAG system.

The Python modules under `src/` are shallowly embedded here:
Python strings are modelled as `String` or `List Char` (for the
index-arithmetic-heavy chunker), Python `int` indices as `Int` with
Python slice/`rfind` normalization made explicit, floats that are only
compared (similarities, thresholds) as `ℚ`, and calls to external
services (embedding model, vector store, LLM providers) as explicit
function parameters whose observable use is instrumented with flags
or traces.  A Python function that can raise is modelled with
`Except`/`Option`.
-/

namespace EndeeSync

/-! ## config.py -/

namespace Config

/-- Python `config.CHUNK_SIZE` (characters per chunk). -/
def CHUNK_SIZE : Nat := 512

/-- Python `config.CHUNK_OVERLAP` (characters of overlap between chunks). -/
def CHUNK_OVERLAP : Nat := 50

/-- Python `config.DEFAULT_TOP_K`. -/
def DEFAULT_TOP_K : Nat := 5

end Config

/-! ## Python primitives used by `ingest.chunk_text`

`ingest.chunk_text` manipulates character indices with Python slice
semantics (negative indices count from the end, out-of-range indices
clamp), `str.rfind` with `start`/`end` arguments, and `str.strip`.
These primitives are embedded here over `List Char`. -/

namespace Py

/-- Normalize a Python slice index `x` for a string of length `len`:
negative indices are offset by `len` and clamped to `0`; nonnegative
indices are clamped to `len`. -/
def normIdx (len : Nat) (x : Int) : Nat :=
  if x < 0 then ((len : Int) + x).toNat else min x.toNat len

/-- Python slice `xs[i:j]` (step 1). -/
def pySlice (xs : List Char) (i j : Int) : List Char :=
  (xs.drop (normIdx xs.length i)).take (normIdx xs.length j - normIdx xs.length i)

/-- Python whitespace, as stripped by `str.strip()`. -/
def isPySpace (c : Char) : Bool :=
  c == ' ' || c == '\t' || c == '\n' || c == '\r' || c == '\x0b' || c == '\x0c'

/-- Python `str.strip()`: drop whitespace from both ends. -/
def pyStrip (xs : List Char) : List Char :=
  ((xs.dropWhile isPySpace).reverse.dropWhile isPySpace).reverse

/-- Does `sub` occur in `xs` starting exactly at position `k`? -/
def matchesAt (xs sub : List Char) (k : Nat) : Bool :=
  (xs.drop k).take sub.length == sub

/-- Scan candidate start positions downward from `k` to `lo`,
returning the largest position where `sub` matches, or `-1`. -/
def rfindDown (xs sub : List Char) (lo : Nat) : Nat → Int
  | 0 => if lo = 0 && matchesAt xs sub 0 then (0 : Int) else -1
  | k + 1 =>
    if lo ≤ k + 1 && matchesAt xs sub (k + 1) then ((k + 1 : Nat) : Int)
    else rfindDown xs sub lo k

/-- Python `xs.rfind(sub, i, j)`: the highest index at which `sub`
occurs entirely within the slice `xs[i:j]`, or `-1`. -/
def pyRfind (xs sub : List Char) (i j : Int) : Int :=
  if sub.length ≤ normIdx xs.length j then
    rfindDown xs sub (normIdx xs.length i) (normIdx xs.length j - sub.length)
  else -1

/-- Does `sub` occur as a contiguous run at the front of `xs`? -/
def headMatches : List Char → List Char → Bool
  | [], _ => true
  | _ :: _, [] => false
  | a :: as, b :: bs => a == b && headMatches as bs

/-- Python substring test `sub in xs`. -/
def containsSub (sub : List Char) : List Char → Bool
  | [] => headMatches sub []
  | c :: t => headMatches sub (c :: t) || containsSub sub t

/-- The scan of Python `text.split(sep)`, structurally recursive on
fuel (every step consumes at least one character, so fuel
`length + 1` always suffices). -/
def splitOnSepAux (s0 : Char) (srest : List Char) : Nat → List Char → List (List Char)
  | 0, _ => []
  | _ + 1, [] => [[]]
  | fuel + 1, c :: rest =>
    if headMatches (s0 :: srest) (c :: rest) then
      [] :: splitOnSepAux s0 srest fuel (rest.drop srest.length)
    else
      match splitOnSepAux s0 srest fuel rest with
      | [] => [[c]]
      | sc :: ss => (c :: sc) :: ss

/-- Python `text.split(sep)` for the non-empty separator
`s0 :: srest`: cut at each leftmost, non-overlapping occurrence. -/
def splitOnSep (s0 : Char) (srest : List Char) (xs : List Char) : List (List Char) :=
  splitOnSepAux s0 srest (xs.length + 1) xs

/-- Python `str.lower()` on ASCII text, character by character. -/
def pyLower (xs : List Char) : List Char :=
  xs.map Char.toLower

end Py

/-! ## ingest.py -/

namespace Ingest

open Py

/-- The sentence boundaries probed by `ingest.chunk_text`, in order:
`'. '`, `'! '`, `'? '`, `'\n\n'`. -/
def boundaryChars : List (List Char) :=
  [['.', ' '], ['!', ' '], ['?', ' '], ['\n', '\n']]

/-- The `for boundary_char in [...]` loop of `ingest.chunk_text`:
try each boundary in order with `text.rfind(boundary_char, lo, hi)`;
on the first hit return `boundary_idx + len(boundary_char)`. -/
def findBoundaryEnd (text : List Char) : List (List Char) → Int → Int → Option Int
  | [], _, _ => none
  | bc :: rest, lo, hi =>
    if pyRfind text bc lo hi ≠ -1 then some (pyRfind text bc lo hi + (bc.length : Int))
    else findBoundaryEnd text rest lo hi

/-- The final `end` of one loop iteration: start from
`end = start + chunk_size`; if that lands strictly inside the text,
move back to a sentence boundary when one is found in the window
`[start + chunk_size // 2, end)`, else to the word boundary
`space_idx` when `space_idx != -1 and space_idx > start`. -/
def stepEnd (text : List Char) (chunkSize : Nat) (start : Int) : Int :=
  if start + (chunkSize : Int) < (text.length : Int) then
    match findBoundaryEnd text boundaryChars (start + ((chunkSize / 2 : Nat) : Int))
        (start + (chunkSize : Int)) with
    | some e => e
    | none =>
      if pyRfind text [' '] start (start + (chunkSize : Int)) ≠ -1 ∧
          start < pyRfind text [' '] start (start + (chunkSize : Int)) then
        pyRfind text [' '] start (start + (chunkSize : Int))
      else start + (chunkSize : Int)
  else start + (chunkSize : Int)

/-- Append `text[start:end].strip()` to the accumulator when it is
non-empty (`if chunk: chunks.append(chunk)`). -/
def stepChunks (text : List Char) (chunkSize : Nat) (start : Int)
    (chunks : List (List Char)) : List (List Char) :=
  if pyStrip (pySlice text start (stepEnd text chunkSize start)) = [] then chunks
  else chunks ++ [pyStrip (pySlice text start (stepEnd text chunkSize start))]

/-- The next `start`: `start = end - overlap`, then the guard
`if (start <= len(chunks[-1][:overlap])) if chunks else 0: start = end`
(the conditional expression is falsy when `chunks` is empty). -/
def stepStart (overlap : Nat) (e : Int) (chunks : List (List Char)) : Int :=
  match chunks.getLast? with
  | none => e - (overlap : Int)
  | some last =>
    if e - (overlap : Int) ≤ ((min overlap last.length : Nat) : Int) then e
    else e - (overlap : Int)

/-- The `while start < text_length` loop of `ingest.chunk_text`,
made total with explicit fuel (the Python loop does not terminate on
all inputs); `none` means the fuel ran out. -/
def chunkTextLoop (text : List Char) (chunkSize overlap : Nat) :
    Nat → Int → List (List Char) → Option (List (List Char))
  | 0, _, _ => none
  | fuel + 1, start, chunks =>
    if start < (text.length : Int) then
      chunkTextLoop text chunkSize overlap fuel
        (stepStart overlap (stepEnd text chunkSize start) (stepChunks text chunkSize start chunks))
        (stepChunks text chunkSize start chunks)
    else some chunks

/-- Python `ingest.chunk_text(text, chunk_size, overlap)`: split text into
overlapping chunks (`if not text: return []`, then the scan loop).
The Python loop has no iteration bound and diverges on some inputs,
so the embedding takes the bound `fuel` explicitly: `none` means the
loop did not finish within `fuel` iterations.  Results are
fuel-monotone (`chunk_text_mono`), so every terminating run of the
Python loop is the `some` value at every sufficiently large fuel. -/
def chunk_text (text : List Char) (chunk_size overlap fuel : Nat) :
    Option (List (List Char)) :=
  if text = [] then some []
  else chunkTextLoop text chunk_size overlap fuel 0 []

end Ingest

/-! ## retrieve.py and embed.py -/

namespace Retrieve

/-- A raw hit returned by the vector store's `query`; `meta` fields
may be absent (`dict.get` defaults apply downstream). -/
structure RawResult where
  id : Option String
  similarity : Option ℚ
  distance : Option ℚ
  metaText : Option String
  metaSource : Option String
  metaChunkIndex : Option Nat

/-- The uniform shape produced by `retrieve.format_results`. -/
structure QueryResult where
  id : Option String
  similarity : Option ℚ
  distance : Option ℚ
  text : String
  source : String
  chunk_index : Nat
deriving DecidableEq

/-- Python `embed.embed_query(query)`: returns the empty vector without
calling the model when the query is empty or whitespace-only
(`if not query or not query.strip()`); otherwise the model's
embedding. The external model is a function parameter. -/
def embed_query (model : String → List ℚ) (query : String) : List ℚ :=
  if query = "" ∨ Py.pyStrip query.toList = [] then [] else model query

/-- Python `retrieve.format_results`: normalize raw hits, defaulting missing
metadata (`text` to `""`, `source` to `""`, `chunk_index` to `0`). -/
def format_results (raw_results : List RawResult) : List QueryResult :=
  raw_results.map fun r =>
    { id := r.id, similarity := r.similarity, distance := r.distance,
      text := r.metaText.getD "", source := r.metaSource.getD "",
      chunk_index := r.metaChunkIndex.getD 0 }

/-- Python `retrieve.retrieve_context`: embed the query; if the embedding is
empty (`query_embedding.size == 0`) return `[]` before touching the
index; otherwise query the store and format the hits.  The second
component records whether a vector-store query was issued. -/
def retrieve_context (model : String → List ℚ) (store : List ℚ → List RawResult)
    (query : String) : List QueryResult × Bool :=
  let query_embedding := embed_query model query
  if query_embedding.length = 0 then ([], false)
  else (format_results (store query_embedding), true)

/-- Python `retrieve.retrieve_with_filter`: embed the query and immediately
query the store with the filter — the function performs no
empty-embedding check.  The second component records whether a
vector-store query was issued. -/
def retrieve_with_filter {F : Type} (model : String → List ℚ)
    (store : List ℚ → F → List RawResult) (query : String) (filters : F) :
    List QueryResult × Bool :=
  let query_embedding := embed_query model query
  (format_results (store query_embedding filters), true)

end Retrieve

/-! ## rag.py -/

namespace Rag

open Retrieve

/-- The LLM providers of the fallback chain in `rag.call_llm`. -/
inductive Provider
  | openai
  | groq
  | localModel
deriving DecidableEq

/-- The credential environment: `config.OPENAI_API_KEY` and
`config.GROQ_API_KEY` (empty string means unconfigured). -/
structure ApiKeys where
  OPENAI_API_KEY : String
  GROQ_API_KEY : String

/-- Python `config.USE_OPENAI = bool(OPENAI_API_KEY)`. -/
def USE_OPENAI (k : ApiKeys) : Bool := k.OPENAI_API_KEY != ""

/-- Python `config.USE_GROQ = bool(GROQ_API_KEY)`. -/
def USE_GROQ (k : ApiKeys) : Bool := k.GROQ_API_KEY != ""

/-- The outcome each provider would produce for this single call:
`some answer` on success, `none` when the call raises. -/
structure ProviderBehavior where
  openaiResult : Option String
  groqResult : Option String
  localResult : Option String

/-- Python `rag.call_llm(prompt)`: try OpenAI if `USE_OPENAI`, catching any
failure; then Groq if `USE_GROQ`, catching any failure; finally the
local model, whose failure propagates (`none` result).  The returned
list is the ordered trace of providers actually invoked. -/
def call_llm (k : ApiKeys) (beh : ProviderBehavior) : Option String × List Provider :=
  let step1 : Option String × List Provider :=
    if USE_OPENAI k then (beh.openaiResult, [Provider.openai]) else (none, [])
  match step1 with
  | (some answer, tried) => (some answer, tried)
  | (none, tried1) =>
    let step2 : Option String × List Provider :=
      if USE_GROQ k then (beh.groqResult, [Provider.groq]) else (none, [])
    match step2 with
    | (some answer, tried2) => (some answer, tried1 ++ tried2)
    | (none, tried2) => (beh.localResult, tried1 ++ tried2 ++ [Provider.localModel])

/-- Python `config.RAG_PROMPT_TEMPLATE.format(context, query)`: the template
is a fixed literal, so formatting is literal concatenation around the
two holes. -/
def rag_prompt_format (context query : String) : String :=
  "Context information is below:\n---\n" ++ context ++
  "\n---\n\nGiven the context above, answer the following question. If the context doesn't contain relevant information to answer the question, say \"I don't have enough information in the provided context to answer this question.\"\n\nQuestion: " ++
  query ++ "\n\nAnswer:"

/-- Python `rag.construct_prompt`: label each chunk
`[n] From <source>:\n<text>` (1-based), join with blank lines, and
instantiate the template. -/
def construct_prompt (query : String) (context_chunks : List QueryResult) : String :=
  let context_parts := context_chunks.enum.map fun p =>
    "[" ++ toString (p.1 + 1) ++ "] From " ++ p.2.source ++ ":\n" ++ p.2.text
  rag_prompt_format (String.intercalate "\n\n" context_parts) query

/-- One entry of the `sources` list built by `rag.generate_answer`. -/
structure SourceEntry where
  source : String
  chunk_index : Nat
  similarity : Option ℚ
  excerpt : String
deriving DecidableEq

/-- The response dictionary of `rag.generate_answer`; `sources = none`
models the key being absent. -/
structure RagResponse where
  answer : String
  num_chunks : Nat
  sources : Option (List SourceEntry)
deriving DecidableEq

/-- The fixed no-context answer string in `rag.generate_answer`. -/
def NO_CONTEXT_ANSWER : String :=
  "I couldn't find any relevant information to answer your question."

/-- Python `rag.generate_answer` after retrieval: the retrieved chunks and
the LLM are passed in explicitly (in the source, retrieval is
`retrieve_context` and the LLM is `call_llm`).  With no chunks it
short-circuits to the fixed answer, `sources = []`, `num_chunks = 0`;
otherwise it builds the prompt, calls the LLM, and shapes the
response (sources only when `include_sources`, excerpts truncated to
150 characters plus an ellipsis).  The second component records
whether the LLM was called. -/
def generate_answer (llm : String → String) (context_chunks : List QueryResult)
    (query : String) (include_sources : Bool) : RagResponse × Bool :=
  if context_chunks.isEmpty then
    ({ answer := NO_CONTEXT_ANSWER, num_chunks := 0, sources := some [] }, false)
  else
    let prompt := construct_prompt query context_chunks
    let answer := llm prompt
    let sources :=
      if include_sources then
        some (context_chunks.map fun c =>
          { source := c.source, chunk_index := c.chunk_index,
            similarity := c.similarity,
            excerpt := if 150 < c.text.length then c.text.take 150 ++ "..." else c.text })
      else none
    ({ answer := answer, num_chunks := context_chunks.length, sources := sources }, true)

end Rag

/-! ## store.py -/

namespace Store

/-- Outcome of the store client's `create_index` call. -/
inductive CreateOutcome
  | success
  | failure (msg : String)

/-- The vector-store client state seen by `initialize_endee_index`:
the names `list_indexes()` returns, and what `create_index` would do
for a given name. -/
structure StoreEnv where
  existing : List String
  createOutcome : String → CreateOutcome

/-- The test `"already exists" in str(create_error).lower()` from
`store.initialize_endee_index`. -/
def isAlreadyExists (msg : String) : Bool :=
  Py.containsSub ("already exists".toList) (Py.pyLower msg.toList)

/-- Python `store.initialize_endee_index`: if the name is already listed,
fetch the handle; otherwise create it, and when creation fails with a
message containing `"already exists"` (case-insensitively) treat the
failure as success and fetch the handle anyway; any other creation
failure is re-raised.  The index handle is modelled by its name. -/
def initialize_endee_index (env : StoreEnv) (index_name : String) :
    Except String String :=
  if index_name ∈ env.existing then
    Except.ok index_name
  else
    match env.createOutcome index_name with
    | CreateOutcome.success => Except.ok index_name
    | CreateOutcome.failure msg =>
      if isAlreadyExists msg then
        Except.ok index_name
      else
        Except.error msg

/-- The slicing scan behind `splitBatches`, structurally recursive on
fuel (every step consumes at least one record, so fuel `length + 1`
always suffices). -/
def splitBatchesAux {α : Type} (m : Nat) : Nat → List α → List (List α)
  | 0, _ => []
  | _ + 1, [] => []
  | fuel + 1, x :: xs => (x :: xs.take m) :: splitBatchesAux m fuel (xs.drop m)

/-- The batches `vectors[i:i+batch_size]` for
`i in range(0, len(vectors), m+1)`; the positive batch size is
`m + 1`. -/
def splitBatches {α : Type} (m : Nat) (xs : List α) : List (List α) :=
  splitBatchesAux m (xs.length + 1) xs

/-- Python `store.batch_upsert(index, vectors, batch_size)`: slice the input
into consecutive batches of at most `batch_size` records and upsert
them in order; the returned list is the ordered sequence of upserted
batches.  `batch_size = 0` makes Python's `range` raise. -/
def batch_upsert {α : Type} (vectors : List α) (batch_size : Nat) :
    Except String (List (List α)) :=
  match batch_size with
  | 0 => Except.error "range() arg 3 must not be zero"
  | m + 1 => Except.ok (splitBatches m vectors)

/-- The batch size `store.store_embeddings` passes to `batch_upsert`
(the provider maximum, 1000). -/
def STORE_EMBEDDINGS_BATCH_SIZE : Nat := 1000

end Store

/-! ## api_handlers.py -/

namespace ApiHandlers

/-- The accumulation loop of `api_handlers.chunk_text` over the
sentences: skip blank sentences; extend the current chunk while
`len(current_chunk) + len(sentence) < max_chunk_size`, else flush the
current chunk (stripped) and restart from this sentence; each added
sentence gets `". "` re-appended; flush the final chunk. -/
def chunkLoop (maxSize : Nat) :
    List (List Char) → List Char → List (List Char) → List (List Char)
  | [], current, chunks =>
    if current ≠ [] then chunks ++ [Py.pyStrip current] else chunks
  | s :: rest, current, chunks =>
    if Py.pyStrip s = [] then chunkLoop maxSize rest current chunks
    else if current.length + (Py.pyStrip s).length < maxSize then
      chunkLoop maxSize rest (current ++ Py.pyStrip s ++ ['.', ' ']) chunks
    else
      chunkLoop maxSize rest (Py.pyStrip s ++ ['.', ' '])
        (if current ≠ [] then chunks ++ [Py.pyStrip current] else chunks)

/-- Python `api_handlers.chunk_text(text, max_chunk_size)`: replace
newlines by spaces, split on `". "`, accumulate sentences, and fall
back to `[text]` when no chunk accumulated. -/
def chunk_text (text : String) (max_chunk_size : Nat) : List String :=
  match chunkLoop max_chunk_size
      (Py.splitOnSep '.' [' ']
        (text.toList.map fun c => if c = '\n' then ' ' else c)) [] [] with
  | [] => [text]
  | c :: cs => (c :: cs).map List.asString

/-- The chunk count reported by `api_handlers.ingest_document`:
`len(chunk_text(text, max_chunk_size=config.CHUNK_SIZE))`. -/
def ingest_document_chunk_count (text : String) : Nat :=
  (chunk_text text Config.CHUNK_SIZE).length

/-- One context dictionary consumed by
`api_handlers.search_semantic`; each field may be absent. -/
structure SearchCtx where
  text : Option String
  similarity : Option ℚ
  source : Option String
  tags : Option (List String)
deriving DecidableEq

/-- One result dictionary built by `api_handlers.search_semantic`. -/
structure SearchHit where
  text : String
  score : ℚ
  source : String
  tags : List String
deriving DecidableEq

/-- The response of `api_handlers.search_semantic` (timings omitted). -/
structure SearchResponse where
  results : List SearchHit
  total : Nat
deriving DecidableEq

/-- Python `api_handlers.search_semantic` after retrieval: keep the contexts
with `ctx.get("similarity", 0.0) >= threshold`, shape them with
defaults (`text` to `""`, `source` to `"unknown"`, `tags` to `[]`),
and report `total = len(results)`. -/
def search_semantic (context_results : List SearchCtx) (threshold : ℚ) :
    SearchResponse :=
  let results := (context_results.filter fun ctx =>
      threshold ≤ ctx.similarity.getD 0).map fun ctx =>
    { text := ctx.text.getD "", score := ctx.similarity.getD 0,
      source := ctx.source.getD "unknown", tags := ctx.tags.getD [] }
  { results := results, total := results.length }

end ApiHandlers

/-! ## Helper lemmas about the Python primitives -/

theorem normIdx_le (len : Nat) (x : Int) : Py.normIdx len x ≤ len := by
  unfold Py.normIdx
  split <;> omega

theorem normIdx_add_le (len : Nat) (x : Int) (c : Nat) :
    Py.normIdx len (x + c) ≤ Py.normIdx len x + c := by
  unfold Py.normIdx
  split <;> split <;> omega

theorem normIdx_le_of_nonneg_le (len : Nat) (x : Int) (n : Nat)
    (h0 : 0 ≤ x) (h : x ≤ (n : Int)) : Py.normIdx len x ≤ n := by
  unfold Py.normIdx
  split <;> omega

theorem pySlice_length_le (xs : List Char) (i j : Int) :
    (Py.pySlice xs i j).length ≤ Py.normIdx xs.length j - Py.normIdx xs.length i := by
  unfold Py.pySlice
  simp only [List.length_take, List.length_drop]
  exact Nat.min_le_left _ _

theorem pyStrip_length_le (xs : List Char) : (Py.pyStrip xs).length ≤ xs.length := by
  unfold Py.pyStrip
  simp only [List.length_reverse]
  refine le_trans (List.Sublist.length_le (List.dropWhile_sublist _)) ?_
  simp only [List.length_reverse]
  exact List.Sublist.length_le (List.dropWhile_sublist _)

theorem rfindDown_spec (xs sub : List Char) (lo : Nat) :
    ∀ k : Nat, Py.rfindDown xs sub lo k = -1 ∨
      (0 ≤ Py.rfindDown xs sub lo k ∧ (Py.rfindDown xs sub lo k).toNat ≤ k ∧
        lo ≤ (Py.rfindDown xs sub lo k).toNat) := by
  intro k
  induction k with
  | zero =>
    unfold Py.rfindDown
    split
    · rename_i h
      simp only [Bool.and_eq_true, decide_eq_true_eq] at h
      right
      refine ⟨le_refl 0, ?_, ?_⟩ <;> simp [h.1]
    · left
      rfl
  | succ n ih =>
    unfold Py.rfindDown
    split
    · rename_i h
      simp only [Bool.and_eq_true, decide_eq_true_eq] at h
      right
      refine ⟨by positivity, ?_, ?_⟩ <;> simp [h.1]
    · rcases ih with h1 | ⟨h1, h2, h3⟩
      · left
        exact h1
      · right
        exact ⟨h1, le_trans h2 (Nat.le_succ n), h3⟩

theorem pyRfind_spec (xs sub : List Char) (i j : Int) :
    Py.pyRfind xs sub i j = -1 ∨
      (0 ≤ Py.pyRfind xs sub i j ∧
        Py.normIdx xs.length i ≤ (Py.pyRfind xs sub i j).toNat ∧
        (Py.pyRfind xs sub i j).toNat + sub.length ≤ Py.normIdx xs.length j) := by
  unfold Py.pyRfind
  split
  · rename_i h
    rcases rfindDown_spec xs sub (Py.normIdx xs.length i)
        (Py.normIdx xs.length j - sub.length) with h1 | ⟨h1, h2, h3⟩
    · left
      exact h1
    · right
      exact ⟨h1, h3, by omega⟩
  · left
    rfl

/-! ## Lemmas about the ingest chunker -/

theorem findBoundaryEnd_le (text : List Char) (e : Int) :
    ∀ (bcs : List (List Char)) (lo hi : Int),
      Ingest.findBoundaryEnd text bcs lo hi = some e →
      0 ≤ e ∧ e ≤ (Py.normIdx text.length hi : Int) := by
  intro bcs
  induction bcs with
  | nil => intro lo hi h; cases h
  | cons bc rest ih =>
    intro lo hi h
    unfold Ingest.findBoundaryEnd at h
    split at h
    · injection h with h'
      rcases pyRfind_spec text bc lo hi with h1 | ⟨h1, h2, h3⟩
      · rename_i hne
        exact absurd h1 hne
      · subst h'
        omega
    · exact ih lo hi h

theorem stepEnd_normIdx_le (text : List Char) (cs : Nat) (start : Int) :
    Py.normIdx text.length (Ingest.stepEnd text cs start) ≤
      Py.normIdx text.length start + cs := by
  unfold Ingest.stepEnd
  split
  · split
    · rename_i e he
      obtain ⟨h0, h1⟩ := findBoundaryEnd_le text e _ _ _ he
      exact le_trans (normIdx_le_of_nonneg_le _ _ _ h0 h1) (normIdx_add_le _ _ _)
    · split
      · rename_i hcond
        rcases pyRfind_spec text [' '] start (start + (cs : Int)) with h1 | ⟨h1, h2, h3⟩
        · exact absurd h1 hcond.1
        · refine le_trans (normIdx_le_of_nonneg_le _ _
            (Py.normIdx text.length (start + (cs : Int))) h1 (by omega)) ?_
          exact normIdx_add_le _ _ _
      · exact normIdx_add_le _ _ _
  · exact normIdx_add_le _ _ _

theorem stepChunk_length_le (text : List Char) (cs : Nat) (start : Int) :
    (Py.pyStrip (Py.pySlice text start (Ingest.stepEnd text cs start))).length ≤ cs := by
  have h1 := pyStrip_length_le (Py.pySlice text start (Ingest.stepEnd text cs start))
  have h2 := pySlice_length_le text start (Ingest.stepEnd text cs start)
  have h3 := stepEnd_normIdx_le text cs start
  omega

theorem stepStart_cases (ov : Nat) (e : Int) (chunks : List (List Char)) :
    Ingest.stepStart ov e chunks = e ∨ Ingest.stepStart ov e chunks = e - (ov : Int) := by
  unfold Ingest.stepStart
  split
  · right
    rfl
  · split
    · left
      rfl
    · right
      rfl

theorem chunkTextLoop_succ (text : List Char) (cs ov fuel : Nat) (start : Int)
    (chunks : List (List Char)) :
    Ingest.chunkTextLoop text cs ov (fuel + 1) start chunks =
      if start < (text.length : Int) then
        Ingest.chunkTextLoop text cs ov fuel
          (Ingest.stepStart ov (Ingest.stepEnd text cs start)
            (Ingest.stepChunks text cs start chunks))
          (Ingest.stepChunks text cs start chunks)
      else some chunks := rfl

theorem chunkTextLoop_size (text : List Char) (cs ov : Nat) :
    ∀ (fuel : Nat) (start : Int) (chunks res : List (List Char)),
      (∀ c ∈ chunks, c.length ≤ cs) →
      Ingest.chunkTextLoop text cs ov fuel start chunks = some res →
      ∀ c ∈ res, c.length ≤ cs := by
  intro fuel
  induction fuel with
  | zero =>
    intro start chunks res hinv h
    exact absurd h (by simp [Ingest.chunkTextLoop])
  | succ n ih =>
    intro start chunks res hinv h
    rw [chunkTextLoop_succ] at h
    split at h
    · refine ih _ _ _ ?_ h
      intro c hc
      unfold Ingest.stepChunks at hc
      split at hc
      · exact hinv c hc
      · rcases List.mem_append.mp hc with h1 | h1
        · exact hinv c h1
        · rw [List.mem_singleton.mp h1]
          exact stepChunk_length_le text cs start
    · injection h with h'
      subst h'
      exact hinv

theorem chunkTextLoop_mono (text : List Char) (cs ov : Nat) :
    ∀ (fuel fuel' : Nat) (start : Int) (chunks res : List (List Char)),
      fuel ≤ fuel' →
      Ingest.chunkTextLoop text cs ov fuel start chunks = some res →
      Ingest.chunkTextLoop text cs ov fuel' start chunks = some res := by
  intro fuel
  induction fuel with
  | zero =>
    intro fuel' start chunks res _ h
    exact absurd h (by simp [Ingest.chunkTextLoop])
  | succ n ih =>
    intro fuel' start chunks res hle h
    obtain ⟨m, rfl⟩ : ∃ m, fuel' = m + 1 := ⟨fuel' - 1, by omega⟩
    rw [chunkTextLoop_succ] at h
    rw [chunkTextLoop_succ]
    split at h
    · rename_i hs
      rw [if_pos hs]
      exact ih m _ _ res (by omega) h
    · rename_i hs
      rw [if_neg hs]
      exact h

theorem chunk_text_mono (text : List Char) (cs ov fuel fuel' : Nat)
    (res : List (List Char)) (hle : fuel ≤ fuel')
    (h : Ingest.chunk_text text cs ov fuel = some res) :
    Ingest.chunk_text text cs ov fuel' = some res := by
  by_cases ht : text = []
  · unfold Ingest.chunk_text at h ⊢
    rw [if_pos ht] at h ⊢
    exact h
  · unfold Ingest.chunk_text at h ⊢
    rw [if_neg ht] at h ⊢
    exact chunkTextLoop_mono text cs ov fuel fuel' 0 [] res hle h

/-! ## Claim theorems -/

/-- C5: for every text, chunk size, overlap, and fuel, every chunk
returned by `ingest.chunk_text` (a fortiori, every chunk except
possibly the last) is a stripped slice of length at most the chunk
size: boundary adjustment only moves the slice end backward from
`start + chunk_size`, so the slice is never longer than `chunk_size`
and stripping only shortens it.  Since the fuel is universally
quantified, every terminating run of the Python loop is covered. -/
theorem chunk_text_chunk_size_le (text : List Char) (cs ov fuel : Nat)
    (res : List (List Char)) (h : Ingest.chunk_text text cs ov fuel = some res) :
    ∀ c ∈ res, c.length ≤ cs := by
  unfold Ingest.chunk_text at h
  split at h
  · injection h with h'
    subst h'
    intro c hc
    simp at hc
  · exact chunkTextLoop_size text cs ov _ 0 [] res (by intro c hc; simp at hc) h

/-- Witness for C5 at a concrete run:
`chunk_text "ab cd" 3 1` with fuel 7 is `some ["ab", "cd", "d"]`, and
the theorem bounds the middle chunk. -/
theorem chunk_text_chunk_size_le_w : (['c', 'd'] : List Char).length ≤ 3 :=
  chunk_text_chunk_size_le "ab cd".toList 3 1 7 [['a', 'b'], ['c', 'd'], ['d']]
    (by decide) ['c', 'd'] (by decide)

/-- C3 counterexample: the 9-character text `"aaaaaaaaa"` is shorter
than the chunk size 10, yet `chunk_text` with overlap 2 returns two
chunks (`start = end - overlap = 8` re-enters the loop and the guard
`8 <= min(overlap, 9)` does not fire), not the single trimmed input.
The run terminates in 3 loop iterations, so fuel 11 is ample, and by
`chunk_text_mono` the result is the same at every larger fuel. -/
theorem chunk_text_short_text_cex :
    (List.replicate 9 'a').length < 10 ∧
    Ingest.chunk_text (List.replicate 9 'a') 10 2 11 =
      some [List.replicate 9 'a', ['a']] ∧
    ((Ingest.chunk_text (List.replicate 9 'a') 10 2 11 ==
      some [Py.pyStrip (List.replicate 9 'a')]) = false) := by
  refine ⟨by decide, by decide, by decide⟩

/-- C3 (amended): for every text whose stripped form is non-empty and
whose length plus the overlap is at most the chunk size,
`ingest.chunk_text` returns exactly one chunk, equal to the stripped
input text — at every fuel of at least 2, the run finishing in one
loop iteration. -/
theorem chunk_text_short_text (text : List Char) (cs ov fuel : Nat)
    (hne : Py.pyStrip text ≠ []) (hsize : text.length + ov ≤ cs)
    (hfuel : 2 ≤ fuel) :
    Ingest.chunk_text text cs ov fuel = some [Py.pyStrip text] := by
  obtain ⟨n, rfl⟩ : ∃ n, fuel = n + 2 := ⟨fuel - 2, by omega⟩
  have htext : text ≠ [] := by
    intro h
    apply hne
    rw [h]
    rfl
  have hlen : 0 < text.length := List.length_pos.mpr htext
  have he : Ingest.stepEnd text cs 0 = (cs : Int) := by
    unfold Ingest.stepEnd
    rw [if_neg (by omega)]
    omega
  have hs : Py.pySlice text 0 (Ingest.stepEnd text cs 0) = text := by
    rw [he]
    unfold Py.pySlice Py.normIdx
    rw [if_neg (by omega), if_neg (by omega)]
    have h1 : min (0 : Int).toNat text.length = 0 := by simp
    have h2 : min ((cs : Int)).toNat text.length = text.length := by
      simp only [Int.toNat_natCast]
      omega
    rw [h1, h2, List.drop_zero, Nat.sub_zero, List.take_length]
  have hchunks : Ingest.stepChunks text cs 0 [] = [Py.pyStrip text] := by
    unfold Ingest.stepChunks
    rw [hs, if_neg hne]
    rfl
  have hge : ¬ (Ingest.stepStart ov (Ingest.stepEnd text cs 0)
      [Py.pyStrip text] < (text.length : Int)) := by
    rcases stepStart_cases ov (Ingest.stepEnd text cs 0) [Py.pyStrip text] with h | h <;>
      rw [h, he] <;> omega
  unfold Ingest.chunk_text
  rw [if_neg htext]
  rw [show n + 2 = (n + 1) + 1 from rfl, chunkTextLoop_succ]
  rw [if_pos (by exact_mod_cast hlen), hchunks, chunkTextLoop_succ, if_neg hge]

/-- Witness for C3 (amended): `chunk_text "hi" 3 1` with fuel 2 is
`some ["hi"]`. -/
theorem chunk_text_short_text_w :
    Ingest.chunk_text "hi".toList 3 1 2 = some [Py.pyStrip "hi".toList] :=
  chunk_text_short_text "hi".toList 3 1 2 (by decide) (by decide) (by decide)

/-- C1: per call, `call_llm` tries OpenAI exactly when its key is
configured, falls through to Groq exactly when Groq is configured and
OpenAI was unconfigured or failed, invokes the terminal local model
exactly when both predecessors were unconfigured or failed (and then
exactly once, no provider being retried — the trace has no
duplicates), and the overall call raises (`none`) exactly when the
local model was invoked and itself failed. -/
theorem call_llm_fallback_chain (k : Rag.ApiKeys) (beh : Rag.ProviderBehavior) :
    (Rag.Provider.openai ∈ (Rag.call_llm k beh).2 ↔ k.OPENAI_API_KEY ≠ "") ∧
    (Rag.Provider.groq ∈ (Rag.call_llm k beh).2 ↔
      k.GROQ_API_KEY ≠ "" ∧ (k.OPENAI_API_KEY = "" ∨ beh.openaiResult = none)) ∧
    (Rag.Provider.localModel ∈ (Rag.call_llm k beh).2 ↔
      (k.OPENAI_API_KEY = "" ∨ beh.openaiResult = none) ∧
      (k.GROQ_API_KEY = "" ∨ beh.groqResult = none)) ∧
    (Rag.call_llm k beh).2.Nodup ∧
    ((Rag.call_llm k beh).1 = none ↔
      Rag.Provider.localModel ∈ (Rag.call_llm k beh).2 ∧ beh.localResult = none) := by
  obtain ⟨ok, gk⟩ := k
  obtain ⟨o, g, l⟩ := beh
  by_cases hO : ok = "" <;> by_cases hG : gk = "" <;>
    cases o <;> cases g <;> cases l <;>
    simp_all [Rag.call_llm, Rag.USE_OPENAI, Rag.USE_GROQ]

/-- Witness for C1: with no OpenAI key, a failing Groq call, and a
succeeding local model, the trace is exactly Groq then local. -/
theorem call_llm_fallback_chain_w :
    Rag.Provider.localModel ∈
      (Rag.call_llm ⟨"", "gk"⟩ ⟨none, none, some "answer"⟩).2 :=
  ((call_llm_fallback_chain ⟨"", "gk"⟩ ⟨none, none, some "answer"⟩).2.2.1).mpr
    (by simp)

/-- C2: with zero retrieved chunks, `generate_answer` returns exactly
the fixed no-information answer, an empty source list, and
`num_chunks = 0`, and does not call the LLM (the flag is `false`),
for every query, LLM, and `include_sources` setting. -/
theorem generate_answer_no_context (llm : String → String) (query : String)
    (include_sources : Bool) :
    Rag.generate_answer llm [] query include_sources =
      ({ answer := Rag.NO_CONTEXT_ANSWER, num_chunks := 0, sources := some [] }, false) :=
  rfl

/-- C4 counterexample: the API-path chunker on `"A. B. C."` with
`max_chunk_size = 5` does not produce `["A.", "B.", "C."]` — the
accumulation test `len("A. ") + len("B") = 4 < 5` merges the first
two sentences, and the final sentence keeps its own period before
`". "` is re-appended. -/
theorem api_chunk_text_scenario_cex :
    (ApiHandlers.chunk_text "A. B. C." 5 == ["A.", "B.", "C."]) = false := by
  decide

/-- C4 (amended): the API-path chunker on `"A. B. C."` with
`max_chunk_size = 5` produces exactly `["A. B.", "C.."]`. -/
theorem api_chunk_text_scenario :
    ApiHandlers.chunk_text "A. B. C." 5 = ["A. B.", "C.."] := by
  decide

/-- C6 counterexample: on the empty query, `retrieve_with_filter`
does issue a vector-store query (the instrumentation flag is `true`):
it has no empty-embedding check, unlike `retrieve_context`. -/
theorem retrieve_with_filter_empty_query_cex :
    (Retrieve.retrieve_with_filter (fun _ => ([] : List ℚ))
      (fun _ _ => ([] : List Retrieve.RawResult)) "" ()).2 = true :=
  rfl

/-- C6 (amended): for every empty or whitespace-only query,
`retrieve_context` returns the empty result list without issuing a
vector-store query, while `retrieve_with_filter` issues the store
query regardless of the query string. -/
theorem retriever_empty_query {F : Type} (model : String → List ℚ)
    (store : List ℚ → List Retrieve.RawResult)
    (storeF : List ℚ → F → List Retrieve.RawResult) (filters : F)
    (query : String) (h : Py.pyStrip query.toList = []) :
    Retrieve.retrieve_context model store query = ([], false) ∧
    (Retrieve.retrieve_with_filter model storeF query filters).2 = true := by
  constructor
  · unfold Retrieve.retrieve_context Retrieve.embed_query
    rw [if_pos (Or.inr h)]
    rfl
  · rfl

/-- Witness for C6 (amended) at the whitespace query `" "`. -/
theorem retriever_empty_query_w :
    Retrieve.retrieve_context (fun _ => ([] : List ℚ))
      (fun _ => ([] : List Retrieve.RawResult)) " " = ([], false) :=
  (retriever_empty_query (fun _ => ([] : List ℚ))
    (fun _ => ([] : List Retrieve.RawResult))
    (fun _ (_ : Unit) => ([] : List Retrieve.RawResult)) () " " (by decide)).1

/-- C7: when the index is not in the listing and `create_index`
fails, `initialize_endee_index` treats a failure whose message
contains "already exists" (case-insensitively) as success and returns
the handle of the existing index; any other creation failure is
re-raised. -/
theorem initialize_index_idempotent (env : Store.StoreEnv) (name msg : String)
    (hnew : name ∉ env.existing)
    (hfail : env.createOutcome name = Store.CreateOutcome.failure msg) :
    (Store.isAlreadyExists msg = true →
      Store.initialize_endee_index env name = Except.ok name) ∧
    (Store.isAlreadyExists msg = false →
      Store.initialize_endee_index env name = Except.error msg) := by
  unfold Store.initialize_endee_index
  rw [if_neg hnew, hfail]
  refine ⟨fun h => ?_, fun h => ?_⟩
  · show (if Store.isAlreadyExists msg = true
      then Except.ok name else Except.error msg) = Except.ok name
    rw [if_pos h]
  · show (if Store.isAlreadyExists msg = true
      then Except.ok name else Except.error msg) = Except.error msg
    rw [if_neg (by simp [h])]

/-- Witness for C7: a race where `create_index` fails with
"Index already exists" still yields the index handle. -/
theorem initialize_index_idempotent_w :
    Store.initialize_endee_index
      ⟨[], fun _ => Store.CreateOutcome.failure "Index already exists"⟩
      "rag_documents" = Except.ok "rag_documents" :=
  (initialize_index_idempotent
    ⟨[], fun _ => Store.CreateOutcome.failure "Index already exists"⟩
    "rag_documents" "Index already exists" (by simp) rfl).1 (by decide)

theorem splitBatchesAux_flatten {α : Type} (m : Nat) :
    ∀ (fuel : Nat) (xs : List α), xs.length < fuel →
      (Store.splitBatchesAux m fuel xs).flatten = xs := by
  intro fuel
  induction fuel with
  | zero => intro xs h; omega
  | succ n ih =>
    intro xs h
    cases xs with
    | nil => rfl
    | cons x rest =>
      simp only [Store.splitBatchesAux, List.flatten_cons]
      rw [ih (rest.drop m) (by simp at h ⊢; omega)]
      simp [List.take_append_drop]

theorem splitBatches_flatten {α : Type} (m : Nat) (xs : List α) :
    (Store.splitBatches m xs).flatten = xs :=
  splitBatchesAux_flatten m (xs.length + 1) xs (Nat.lt_succ_self _)

theorem splitBatchesAux_le {α : Type} (m : Nat) :
    ∀ (fuel : Nat) (xs : List α), ∀ b ∈ Store.splitBatchesAux m fuel xs,
      b.length ≤ m + 1 := by
  intro fuel
  induction fuel with
  | zero => intro xs b hb; simp [Store.splitBatchesAux] at hb
  | succ n ih =>
    intro xs b hb
    cases xs with
    | nil => simp [Store.splitBatchesAux] at hb
    | cons x rest =>
      simp only [Store.splitBatchesAux] at hb
      rcases List.mem_cons.mp hb with h | h
      · subst h
        simp only [List.length_cons, List.length_take]
        omega
      · exact ih (rest.drop m) b h

theorem splitBatches_le {α : Type} (m : Nat) (xs : List α) :
    ∀ b ∈ Store.splitBatches m xs, b.length ≤ m + 1 :=
  splitBatchesAux_le m (xs.length + 1) xs

/-- C8: for every record list and every positive batch size
(written `m + 1`), `batch_upsert` succeeds with the consecutive
slices `vectors[i:i+batch_size]` as its ordered upsert sequence;
every batch has length at most the batch size and their
concatenation is exactly the input list, so every record is upserted
exactly once and in order. -/
theorem batch_upsert_spec {α : Type} (m : Nat) (vectors : List α) :
    Store.batch_upsert vectors (m + 1) = Except.ok (Store.splitBatches m vectors) ∧
    (∀ b ∈ Store.splitBatches m vectors, b.length ≤ m + 1) ∧
    (Store.splitBatches m vectors).flatten = vectors :=
  ⟨rfl, splitBatches_le m vectors, splitBatches_flatten m vectors⟩

/-- Witness for C8: batch size 2 on `[1, 2, 3]` gives batches
`[[1, 2], [3]]`, and the theorem bounds the batch `[1, 2]`. -/
theorem batch_upsert_spec_w : ([1, 2] : List Nat).length ≤ 2 :=
  (batch_upsert_spec 1 [1, 2, 3]).2.1 [1, 2] (by decide)

/-- C9: `search_semantic` reports `total` equal to the length of its
result list, and every returned result's score (the similarity,
defaulting to 0 when absent) is at least the threshold. -/
theorem search_semantic_threshold (context_results : List ApiHandlers.SearchCtx)
    (threshold : ℚ) :
    (ApiHandlers.search_semantic context_results threshold).total =
      (ApiHandlers.search_semantic context_results threshold).results.length ∧
    ∀ r ∈ (ApiHandlers.search_semantic context_results threshold).results,
      threshold ≤ r.score := by
  refine ⟨rfl, ?_⟩
  intro r hr
  simp only [ApiHandlers.search_semantic, List.mem_map, List.mem_filter,
    decide_eq_true_eq] at hr
  obtain ⟨ctx, ⟨hmem, hsim⟩, rfl⟩ := hr
  exact hsim

/-- Witness for C9: a single context of similarity 1 survives the
threshold 0 and its score is at least 0. -/
theorem search_semantic_threshold_w :
    (0 : ℚ) ≤
      ({ text := "t", score := 1, source := "unknown", tags := [] } :
        ApiHandlers.SearchHit).score :=
  (search_semantic_threshold [⟨some "t", some 1, none, none⟩] 0).2
    { text := "t", score := 1, source := "unknown", tags := [] } (by decide)

/-- C10: the API-path chunker never returns an empty list — for every
text and maximum chunk size it yields at least one chunk (falling
back to `[text]`), so `ingest_document` always reports a chunk count
of at least 1. -/
theorem api_chunk_text_never_empty (text : String) (max_chunk_size : Nat) :
    1 ≤ (ApiHandlers.chunk_text text max_chunk_size).length ∧
    1 ≤ ApiHandlers.ingest_document_chunk_count text := by
  have key : ∀ m : Nat, 1 ≤ (ApiHandlers.chunk_text text m).length := by
    intro m
    unfold ApiHandlers.chunk_text
    split
    · simp
    · simp
  exact ⟨key max_chunk_size, key Config.CHUNK_SIZE⟩

end EndeeSync
